import Mathlib

/-!
Verification of the color-palette-generator repository.

The definitions below are a shallow embedding of the two core components:

* `ColorModel` — the multi-representation color value object
  (src/unnamed/part_000, compiled class `ColorModel`, identical to
  dist/esm/ColorPaletteGenerator.mjs);
* `ColorPaletteGenerator` — the palette generator
  (src/unnamed/part_000, class `ColorPaletteGenerator`).

JavaScript numbers are modelled as exact rationals `ℚ`; `Math.floor` is
`Int.floor`, `Math.round` is `round` (both round half up, as in JS for the
inputs that occur), and the JS remainder `%` is truncation-based `jsMod`.
The injected `rand` capability is modelled as the stream of values it
returns, a function `ℕ → ℚ`, together with an explicit cursor `n : ℕ`
threaded through every operation that draws from it (the JS closure's
hidden state).  `Array.prototype.sort` called with the impure comparator
`() => rand() - 0.5` is modelled by a deterministic insertion sort that
draws one value per comparison; `sort((a, b) => a.hsv.v - b.hsv.v)` is
modelled by a stable insertion sort on the value channel, which is exactly
the order a stable engine sort produces for this consistent comparator.
The rejection-sampling `while` loops of `getDistributedPalette` are given
an explicit fuel parameter; exhausting every fuel models divergence.
-/

/-- JS truncation toward zero, the rounding used by the `%` operator. -/
def jsTrunc (x : ℚ) : ℤ := if 0 ≤ x then ⌊x⌋ else ⌈x⌉

/-- The JS remainder operator `x % y` on finite numbers. -/
def jsMod (x y : ℚ) : ℚ := x - y * jsTrunc (x / y)

/-- The conditional-expression clamp pattern used throughout the source:
`v > max ? max : v < min ? min : v`. -/
def clampJs (x mn mx : ℚ) : ℚ := if x > mx then mx else if x < mn then mn else x

/-- RGB color record (`RGBColor` in the source). -/
structure RGBColor where
  r : ℚ
  g : ℚ
  b : ℚ
deriving DecidableEq, Repr

/-- HSL color record (`HSLColor` in the source). -/
structure HSLColor where
  h : ℚ
  s : ℚ
  l : ℚ
deriving DecidableEq, Repr

/-- HSV color record (`HSVColor` in the source). -/
structure HSVColor where
  h : ℚ
  s : ℚ
  v : ℚ
deriving DecidableEq, Repr

/-- The `ColorModel` value object: one color held simultaneously in its
hex, RGB, HSL and HSV representations (the four private fields). -/
structure ColorModel where
  hex : String
  rgb : RGBColor
  hsl : HSLColor
  hsv : HSVColor
deriving DecidableEq, Repr

namespace ColorModel

/-- One hex digit of `Number.prototype.toString(16)` (lowercase). -/
def hexDigitChar (n : ℕ) : Char :=
  if n < 10 then Char.ofNat ('0'.toNat + n) else Char.ofNat ('a'.toNat + (n - 10))

/-- Hex digits of a natural number, most significant first; the first
argument is fuel (any value `≥ n` is enough for `n`). -/
def natToHexAux : ℕ → ℕ → List Char
  | 0, n => [hexDigitChar (n % 16)]
  | fuel + 1, n => if n < 16 then [hexDigitChar n] else natToHexAux fuel (n / 16) ++ [hexDigitChar (n % 16)]

/-- `n.toString(16)` for a natural number. -/
def natToHex (n : ℕ) : String := String.mk (natToHexAux n n)

/-- `i.toString(16)` for an integer, as produced by JS. -/
def intToHex (i : ℤ) : String := if i < 0 then "-" ++ natToHex i.natAbs else natToHex i.toNat

/-- Method `rgbToHex`: rounds each channel and formats it as 2-digit hex;
out-of-range input is not clamped. -/
def rgbToHex (c : RGBColor) : String :=
  let toHex : ℚ → String := fun x =>
    let h := intToHex (round x)
    if h.length = 1 then "0" ++ h else h
  "#" ++ toHex c.r ++ toHex c.g ++ toHex c.b

/-- Whether a character matches `[a-f\d]` with the `i` flag. -/
def isHexChar (c : Char) : Bool :=
  ('a' ≤ c && c ≤ 'f') || ('A' ≤ c && c ≤ 'F') || ('0' ≤ c && c ≤ '9')

/-- Numeric value of a hex digit character (`parseInt` on one digit). -/
def hexCharVal (c : Char) : ℕ :=
  if 'a' ≤ c ∧ c ≤ 'f' then c.toNat - 'a'.toNat + 10
  else if 'A' ≤ c ∧ c ≤ 'F' then c.toNat - 'A'.toNat + 10
  else c.toNat - '0'.toNat

/-- Strips the optional leading `#` consumed by the `#?` of the pattern
`/^#?([a-f\d]{2})([a-f\d]{2})([a-f\d]{2})$/i`. -/
def stripHash : List Char → List Char
  | '#' :: rest => rest
  | l => l

/-- Whether the regular expression `/^#?([a-f\d]{2})([a-f\d]{2})([a-f\d]{2})$/i`
matches the string: after the optional `#`, exactly six hex digits. -/
def hexPattern (s : String) : Bool :=
  let l := stripHash s.data
  l.length = 6 && l.all isHexChar

/-- Method `hexToRgb`: parses the three channels on a pattern match and
falls back to black `{r:0, g:0, b:0}` otherwise; it never throws. -/
def hexToRgb (s : String) : RGBColor :=
  match stripHash s.data with
  | [a, b, c, d, e, f] =>
    if [a, b, c, d, e, f].all isHexChar then
      ⟨(hexCharVal a * 16 + hexCharVal b : ℕ), (hexCharVal c * 16 + hexCharVal d : ℕ),
        (hexCharVal e * 16 + hexCharVal f : ℕ)⟩
    else ⟨0, 0, 0⟩
  | _ => ⟨0, 0, 0⟩

/-- Method `rgbToHsl` (floors h, s and l to integers). -/
def rgbToHsl (c : RGBColor) : HSLColor :=
  let r := c.r / 255
  let g := c.g / 255
  let b := c.b / 255
  let mx := max r (max g b)
  let mn := min r (min g b)
  let l := (mx + mn) / 2
  if mx = mn then ⟨0, 0, (⌊l * 100⌋ : ℤ)⟩
  else
    let d := mx - mn
    let s := if l > 0.5 then d / (2 - mx - mn) else d / (mx + mn)
    let h :=
      if mx = r then (g - b) / d + (if g < b then 6 else 0)
      else if mx = g then (b - r) / d + 2
      else (r - g) / d + 4
    ⟨(⌊h / 6 * 360⌋ : ℤ), (⌊s * 100⌋ : ℤ), (⌊l * 100⌋ : ℤ)⟩

/-- The `hue2rgb` helper of `hslToRgb`. -/
def hue2rgb (p q t : ℚ) : ℚ :=
  let t := if t < 0 then t + 1 else t
  let t := if t > 1 then t - 1 else t
  if t < 1 / 6 then p + (q - p) * 6 * t
  else if t < 1 / 2 then q
  else if t < 2 / 3 then p + (q - p) * (2 / 3 - t) * 6
  else p

/-- Method `hslToRgb`. -/
def hslToRgb (c : HSLColor) : RGBColor :=
  let h := c.h / 360
  let s := c.s / 100
  let l := c.l / 100
  if s = 0 then ⟨l * 255, l * 255, l * 255⟩
  else
    let q := if l < 0.5 then l * (1 + s) else l + s - l * s
    let p := 2 * l - q
    ⟨hue2rgb p q (h + 1 / 3) * 255, hue2rgb p q h * 255, hue2rgb p q (h - 1 / 3) * 255⟩

/-- Method `hslToHsv`, the pivot `V = (s/100)·min(L, 1−L) + L`; saturation
is defined as `0` when `V = 0`. -/
def hslToHsv (c : HSLColor) : HSVColor :=
  let L := c.l / 100
  let V := c.s / 100 * min L (1 - L) + L
  ⟨c.h, if V = 0 then 0 else 100 * (2 - 2 * L / V), V * 100⟩

/-- Method `hsvToHsl`, the inverse pivot; saturation is `0` when
`min(L, 1−L) = 0`. -/
def hsvToHsl (c : HSVColor) : HSLColor :=
  let V := c.v / 100
  let L := V - V * c.s / 200
  let m := min L (1 - L)
  ⟨c.h, if m = 0 then 0 else 100 * (V - L) / m, L * 100⟩

/-- The `hex` setter: store the string and recompute rgb → hsl → hsv. -/
def setHex (_c : ColorModel) (value : String) : ColorModel :=
  let rgb := hexToRgb value
  let hsl := rgbToHsl rgb
  ⟨value, rgb, hsl, hslToHsv hsl⟩

/-- The `rgb` setter. -/
def setRgb (_c : ColorModel) (value : RGBColor) : ColorModel :=
  let hsl := rgbToHsl value
  ⟨rgbToHex value, value, hsl, hslToHsv hsl⟩

/-- The `hsl` setter: hsv is recomputed from the new hsl value, not from rgb. -/
def setHsl (_c : ColorModel) (value : HSLColor) : ColorModel :=
  let rgb := hslToRgb value
  ⟨rgbToHex rgb, rgb, value, hslToHsv value⟩

/-- The `hsv` setter: hsl from the new value, then rgb and hex from hsl. -/
def setHsv (_c : ColorModel) (value : HSVColor) : ColorModel :=
  let hsl := hsvToHsl value
  let rgb := hslToRgb hsl
  ⟨rgbToHex rgb, rgb, hsl, value⟩

/-- The constructor `new ColorModel(hexCode = '#000000')`. -/
def ofHex (hexCode : String := "#000000") : ColorModel :=
  setHex ⟨"", ⟨0, 0, 0⟩, ⟨0, 0, 0⟩, ⟨0, 0, 0⟩⟩ hexCode

/-- Method `equals`: hex-string equality. -/
def equals (c other : ColorModel) : Bool := c.hex == other.hex

/-- Method `clone`. -/
def clone (c : ColorModel) : ColorModel := ofHex c.hex

/-- Method `addToHue` (pure: takes and returns numbers). -/
def addToHue (h add : ℚ) : ℚ :=
  if h + add > 360 then jsMod (h + add) 360
  else if h + add < 0 then 360 + h + add
  else h + add

/-- Method `saturate`: writes the clamped saturation into the stored hsv
record in place, then assigns `hsl = hsvToHsl(hsv)` through the hsl setter. -/
def saturate (c : ColorModel) (saturation : ℚ := 0) (mx : ℚ := 100) (mn : ℚ := 0) : ColorModel :=
  let currentSat := c.hsv.s
  let c' := { c with hsv := { c.hsv with s := clampJs (currentSat + saturation) mn mx } }
  setHsl c' (hsvToHsl c'.hsv)

/-- Method `brighten`: writes a clamped lightness into the stored hsl record
in place, then assigns `hsl = hsvToHsl(hsv)` from the unchanged hsv through
the hsl setter. -/
def brighten (c : ColorModel) (brightness : ℚ := 0) (mx : ℚ := 100) (mn : ℚ := 0) : ColorModel :=
  let currentBrightness := c.hsv.v
  let c' := { c with hsl := { c.hsl with l := clampJs (currentBrightness + brightness) mn mx } }
  setHsl c' (hsvToHsl c'.hsv)

/-- Method `saturateHsl`. -/
def saturateHsl (c : ColorModel) (saturation : ℚ := 0) (mx : ℚ := 100) (mn : ℚ := 0) : ColorModel :=
  let currentSat := c.hsl.s
  let c' := { c with hsl := { c.hsl with s := clampJs (currentSat + saturation) mn mx } }
  setRgb c' (hslToRgb c'.hsl)

/-- Method `lighten`. -/
def lighten (c : ColorModel) (lightness : ℚ := 0) (mx : ℚ := 100) (mn : ℚ := 0) : ColorModel :=
  let currentLightness := c.hsl.l
  let c' := { c with hsl := { c.hsl with l := clampJs (currentLightness + lightness) mn mx } }
  setRgb c' (hslToRgb c'.hsl)

end ColorModel

/-- The three generated palettes (`ColorPalettes` in the source). -/
structure ColorPalettes where
  base : List ColorModel
  light : List ColorModel
  dark : List ColorModel
deriving DecidableEq, Repr

/-- The `ColorPaletteGenerator` state.  The injected `rand` capability is
not stored here: it is passed to every drawing operation as the stream of
its return values together with the current cursor. -/
structure ColorPaletteGenerator where
  precision : ℕ
  hueRange : ℚ
  baseColor : ColorModel
  palettes : ColorPalettes
deriving DecidableEq, Repr

/-- Constructor parameters (`ColorPaletteParams` in the source), minus the
explicitly passed `rand`. -/
structure ColorPaletteParams where
  precision : ℕ := 4
  hueRange : ℚ := 180
  baseColor : Option String := none
  baseSaturation : Option ℚ := none

namespace ColorPaletteGenerator

/-- Method `setBaseColor`: builds a `ColorModel` from the hex code, then
always calls `saturate` (the `baseSaturation !== undefined` test is against
the parameter default `null`, and JS coerces `null` to `0` in `saturate`'s
arithmetic, so an absent level behaves as `saturate(0)`). -/
def setBaseColor (g : ColorPaletteGenerator) (baseColor : String := "#000000")
    (baseSaturation : Option ℚ := none) : ColorPaletteGenerator :=
  { g with baseColor := (ColorModel.ofHex baseColor).saturate (baseSaturation.getD 0) 100 0 }

/-- Method `generateBasePalette`: seed in the middle, `precision` colors
prepended by pass A (positive hue shifts) and `precision` colors appended
by pass B (negative hue shifts); the interpolation targets are drawn once
per pass.  Returns the palette and the advanced rand cursor. -/
def generateBasePalette (ρ : ℕ → ℚ) (g : ColorPaletteGenerator) (n : ℕ) :
    List ColorModel × ℕ :=
  let p : ℚ := (g.precision : ℚ)
  let hueStep : ℚ := g.hueRange * 0.5 / p
  let bh := g.baseColor.hsv.h
  let bs := g.baseColor.hsv.s
  let bv := g.baseColor.hsv.v
  let endS1 := ρ n * 5 + 22.5
  let endV1 := ρ (n + 1) * 7.5 + 90
  let passA := (List.range g.precision).map fun (j : ℕ) =>
    let i : ℚ := (j : ℚ) + 1
    ColorModel.setHsv (ColorModel.ofHex "#000000")
      ⟨ColorModel.addToHue bh (hueStep * i),
        max 0 (min 100 (bs - i * (bs - endS1) / p)),
        max 0 (min 100 (bv + i * (endV1 - bv) / p))⟩
  let endS2 := ρ (n + 2) * 7.5 + 90
  let endV2 := ρ (n + 3) * 5 + 22.5
  let passB := (List.range g.precision).map fun (j : ℕ) =>
    let i : ℚ := (j : ℚ) + 1
    ColorModel.setHsv (ColorModel.ofHex "#000000")
      ⟨ColorModel.addToHue bh (-hueStep * i),
        max 0 (min 100 (bs + i * (endS2 - bs) / p)),
        max 0 (min 100 (bv - i * (bv - endV2) / p))⟩
  (passA.reverse ++ [g.baseColor] ++ passB, n + 4)

/-- Method `generateLightPalette`: one hue/saturation/value delta triple is
drawn, then every base entry is rebuilt from its hex and shifted. -/
def generateLightPalette (ρ : ℕ → ℚ) (base : List ColorModel) (n : ℕ) :
    List ColorModel × ℕ :=
  let hue := ρ n * 5 + 7.5
  let saturation := ρ (n + 1) * 7.5 + 22.5
  let value := ρ (n + 2) * 7.5 + 27.5
  (base.map fun b =>
    let c := ColorModel.ofHex b.hex
    ColorModel.setHsv c
      ⟨ColorModel.addToHue c.hsv.h (-hue),
        max 0 (min 100 (c.hsv.s - saturation)),
        max 0 (min 100 (c.hsv.v + value))⟩, n + 3)

/-- Method `generateDarkPalette`: like the light palette with the hue shift
added and the saturation/value deltas applied in the opposite direction. -/
def generateDarkPalette (ρ : ℕ → ℚ) (base : List ColorModel) (n : ℕ) :
    List ColorModel × ℕ :=
  let hue := ρ n * 5 + 7.5
  let saturation := ρ (n + 1) * 7.5 + 22.5
  let value := ρ (n + 2) * 7.5 + 27.5
  (base.map fun b =>
    let c := ColorModel.ofHex b.hex
    ColorModel.setHsv c
      ⟨ColorModel.addToHue c.hsv.h hue,
        max 0 (min 100 (c.hsv.s + saturation)),
        max 0 (min 100 (c.hsv.v - value))⟩, n + 3)

/-- Method `generatePalettes`: replaces the palettes wholesale. -/
def generatePalettes (ρ : ℕ → ℚ) (g : ColorPaletteGenerator) (n : ℕ) :
    ColorPaletteGenerator × ℕ :=
  let base := (generateBasePalette ρ g n).1
  let n₁ := (generateBasePalette ρ g n).2
  let light := (generateLightPalette ρ base n₁).1
  let n₂ := (generateLightPalette ρ base n₁).2
  let dark := (generateDarkPalette ρ base n₂).1
  let n₃ := (generateDarkPalette ρ base n₂).2
  ({ g with palettes := ⟨base, light, dark⟩ }, n₃)

/-- The `else` branch of the constructor: `setBaseColor()` followed by an
assignment to `baseColor.hsv` whose h, s, v draws happen in this order
(the saturation draw is skipped when `baseSaturation` is supplied). -/
def runRandomSeed (ρ : ℕ → ℚ) (prm : ColorPaletteParams) (g0 : ColorPaletteGenerator) :
    ColorPaletteGenerator × ℕ :=
  let g1 := setBaseColor g0 "#000000" none
  match prm.baseSaturation with
  | some bs =>
    let seed := ColorModel.setHsv g1.baseColor
      ⟨((round (ρ 0 * 100 * 3.6) : ℤ) : ℚ), bs, ((round (ρ 1 * 20 + 65) : ℤ) : ℚ)⟩
    generatePalettes ρ { g1 with baseColor := seed } 2
  | none =>
    let seed := ColorModel.setHsv g1.baseColor
      ⟨((round (ρ 0 * 100 * 3.6) : ℤ) : ℚ), ((round (ρ 1 * 20 + 65) : ℤ) : ℚ),
        ((round (ρ 2 * 20 + 65) : ℤ) : ℚ)⟩
    generatePalettes ρ { g1 with baseColor := seed } 3

/-- The class constructor.  With no `baseColor` (or the falsy empty string)
a random seed color is synthesized via `runRandomSeed`.  Always ends by
generating the palettes. -/
def runConstructor (ρ : ℕ → ℚ) (prm : ColorPaletteParams) :
    ColorPaletteGenerator × ℕ :=
  let g0 : ColorPaletteGenerator :=
    { precision := prm.precision, hueRange := prm.hueRange,
      baseColor := ColorModel.ofHex "#000000", palettes := ⟨[], [], []⟩ }
  match prm.baseColor with
  | some hex =>
    if hex = "" then
      runRandomSeed ρ prm g0
    else
      generatePalettes ρ (setBaseColor g0 hex prm.baseSaturation) 0
  | none => runRandomSeed ρ prm g0

/-- Getter `fullPalette`: light, base, dark concatenated in this order. -/
def fullPalette (g : ColorPaletteGenerator) : List ColorModel :=
  g.palettes.light ++ g.palettes.base ++ g.palettes.dark

end ColorPaletteGenerator

namespace ColorPaletteGenerator

/-- One pass of `filter((c, index) => index % 2 === 1)`: keep the entries
at odd positions of the current list. -/
def oddEntries {α : Type} : List α → List α
  | [] => []
  | [_] => []
  | _ :: y :: rest => y :: oddEntries rest

/-- Insertion step of the model of `sort(() => rand() - 0.5)`: each
comparison draws one value and keeps the inserted element in front exactly
when the comparator value is negative. -/
def shuffleInsert {α : Type} (ρ : ℕ → ℚ) (x : α) : List α → ℕ → List α × ℕ
  | [], n => ([x], n)
  | y :: ys, n =>
    if ρ n - 0.5 < 0 then (x :: y :: ys, n + 1)
    else
      let (zs, n') := shuffleInsert ρ x ys (n + 1)
      (y :: zs, n')

/-- Model of `Array.prototype.sort` with the impure comparator
`() => rand() - 0.5`: a deterministic comparator-driven insertion sort.
Engines differ on the exact permutation such an inconsistent comparator
produces; any deterministic comparison sort is a faithful abstraction, and
the output is always a permutation of the input. -/
def shuffleJs {α : Type} (ρ : ℕ → ℚ) : List α → ℕ → List α × ℕ
  | [], n => ([], n)
  | x :: xs, n =>
    let (s, n₁) := shuffleJs ρ xs n
    shuffleInsert ρ x s n₁

/-- Insertion step of the stable sort by HSV value: the new element goes
after every already-placed element of value `≤` its own. -/
def insertByV (x : ColorModel) : List ColorModel → List ColorModel
  | [] => [x]
  | y :: ys => if y.hsv.v ≤ x.hsv.v then y :: insertByV x ys else x :: y :: ys

/-- Model of `sort((a, b) => a.hsv.v - b.hsv.v)`: the stable ascending sort
by HSV value (JS `Array.prototype.sort` is stable and this comparator is
consistent, so the result is the unique stable ascending reordering). -/
def sortByV (l : List ColorModel) : List ColorModel :=
  l.foldl (fun acc x => insertByV x acc) []

/-- The assignment `arr[0] = b`: overwrites the head, or creates element 0
on an empty array. -/
def setAt0 {α : Type} : List α → α → List α
  | [], b => [b]
  | _ :: t, b => b :: t

/-- Options of `getRandomPalette`, with the source defaults. -/
structure RandomPaletteOptions where
  length : ℤ := 4
  includeBaseColor : Bool := false
  filterPasses : Bool := true
  sortByBrightness : Bool := true
  minSaturation : ℚ := 0
  maxSaturation : ℚ := 100

/-- Method `getRandomPalette` of the checked-in TypeScript source
(src/unnamed/part_000 lines 301–360): saturation filters, two optional
odd-entry passes, rand shuffle, truncation, optional forced base color,
optional sort by brightness.  Note this version accepts no
`minBrightness`/`maxBrightness` options and applies no brightness filter. -/
def getRandomPalette (ρ : ℕ → ℚ) (g : ColorPaletteGenerator)
    (o : RandomPaletteOptions) (n : ℕ) : List ColorModel × ℕ :=
  let len : ℤ := if o.length < 1 then 1 else o.length
  let p1 := (fullPalette g).filter fun c => o.minSaturation ≤ c.hsv.s
  let p2 := p1.filter fun c => c.hsv.s ≤ o.maxSaturation
  let p3 := if o.filterPasses ∧ 2 < g.precision then oddEntries (oddEntries p2) else p2
  let sh := (shuffleJs ρ p3 n).1
  let n₁ := (shuffleJs ρ p3 n).2
  let taken := sh.take len.toNat
  let withBase :=
    if o.includeBaseColor then
      if taken.any (fun c => c.equals g.baseColor) then taken else setAt0 taken g.baseColor
    else taken
  ((if o.sortByBrightness then sortByV withBase else withBase), n₁)

/-- Options of `getDistributedPalette`, with the source defaults. -/
structure DistributedPaletteOptions where
  length : ℤ := 4
  includeBaseColor : Bool := false
  sortByBrightness : Bool := true
  minSaturation : ℚ := 0
  maxSaturation : ℚ := 100

/-- The target length `getDistributedPalette` works with after the optional
seed reservation decrements it (floored at 0). -/
def distLength (o : DistributedPaletteOptions) : ℤ :=
  if o.includeBaseColor then max 0 (o.length - 1) else o.length

/-- The filtered pool of `getDistributedPalette`: `fullPalette` restricted
by the two saturation bounds, in the source's filter order. -/
def saturationPool (g : ColorPaletteGenerator) (minS maxS : ℚ) : List ColorModel :=
  ((fullPalette g).filter fun c => minS ≤ c.hsv.s).filter fun c => c.hsv.s ≤ maxS

/-- A placeholder for the out-of-range array read `band[index]`, reachable
only when the injected rand returns values outside `[0, 1)`. -/
def outOfRangeColor : ColorModel := ⟨"", ⟨0, 0, 0⟩, ⟨0, 0, 0⟩, ⟨0, 0, 0⟩⟩

/-- The helper `getRandomIndex(array)`: `Math.floor(rand() * array.length)`. -/
def getRandomIndex (ρ : ℕ → ℚ) (n : ℕ) (len : ℕ) : ℕ :=
  (⌊ρ n * (len : ℚ)⌋).toNat

/-- One rejection-sampling `while` loop of `getDistributedPalette`: draw
indices into `band` until one is neither already chosen nor (when
`excl` is set) the seed color.  `fuel` bounds the number of draws the model
performs; the JS loop has no such bound. -/
def sampleIdx (ρ : ℕ → ℚ) (band : List ColorModel) (seed : ColorModel) (excl : Bool)
    (chosen : List ℕ) : ℕ → ℕ → Option (ℕ × ℕ)
  | 0, _ => none
  | fuel + 1, n =>
    let idx := getRandomIndex ρ n band.length
    if chosen.contains idx ∨ (excl ∧ ((band.getD idx outOfRangeColor).equals seed : Bool)) then
      sampleIdx ρ band seed excl chosen fuel (n + 1)
    else some (idx, n + 1)

/-- One band's `for` loop of `getDistributedPalette`: `iters` accepted
samples drawn without replacement from `band`, the chosen indices and the
picked colors appended in acceptance order. -/
def sampleBand (ρ : ℕ → ℚ) (band : List ColorModel) (seed : ColorModel) (excl : Bool)
    (fuel : ℕ) : ℕ → List ℕ → List ColorModel → ℕ → Option (List ColorModel × ℕ)
  | 0, _, acc, n => some (acc, n)
  | iters + 1, chosen, acc, n =>
    match sampleIdx ρ band seed excl chosen fuel n with
    | none => none
    | some (idx, n') =>
      sampleBand ρ band seed excl fuel iters (chosen ++ [idx])
        (acc ++ [band.getD idx outOfRangeColor]) n'

/-- Method `getDistributedPalette` of the checked-in TypeScript source
(src/unnamed/part_000 lines 372–491): optional seed reservation, saturation
filters, the small-pool shuffle fallback (which discards the reserved seed),
otherwise stratified rejection sampling from the dark (`v ≤ 37.5`), light
(`v ≥ 87.5`) and middle brightness bands.  `none` models a run in which some
rejection loop exceeded the given fuel (the JS code would still be looping). -/
def getDistributedPalette (ρ : ℕ → ℚ) (g : ColorPaletteGenerator)
    (o : DistributedPaletteOptions) (fuel : ℕ) (n : ℕ) :
    Option (List ColorModel × ℕ) :=
  let ret0 : List ColorModel := if o.includeBaseColor then [g.baseColor] else []
  let len : ℤ := distLength o
  let pool := saturationPool g o.minSaturation o.maxSaturation
  if (pool.length : ℤ) ≤ len + 1 then
    some ((shuffleJs ρ pool n).1.take len.toNat, (shuffleJs ρ pool n).2)
  else
    let darkP := pool.filter fun c => c.hsv.v ≤ 37.5
    let lightP := pool.filter fun c => 87.5 ≤ c.hsv.v
    let midP := pool.filter fun c => 37.5 < c.hsv.v ∧ c.hsv.v < 87.5
    let quarter : ℕ := (Int.fdiv len 4).toNat
    match sampleBand ρ darkP g.baseColor o.includeBaseColor fuel
      (min darkP.length quarter) [] [] n with
    | none => none
    | some (darkPicks, n₁) =>
      match sampleBand ρ lightP g.baseColor o.includeBaseColor fuel
        (min lightP.length quarter) [] [] n₁ with
      | none => none
      | some (lightPicks, n₂) =>
        let nb := darkPicks.length + lightPicks.length
        match sampleBand ρ midP g.baseColor o.includeBaseColor fuel
          (min midP.length (len - (nb : ℤ)).toNat) [] [] n₂ with
        | none => none
        | some (midPicks, n₃) =>
          let result := ret0 ++ darkPicks ++ lightPicks ++ midPicks
          some ((if o.sortByBrightness then sortByV result else result), n₃)

end ColorPaletteGenerator

/-- The HSL lightness pivot `L = (v/100) − (v/100)·s/200` computed by
`hsvToHsl` for an HSV value. -/
def pivotL (x : HSVColor) : ℚ := x.v / 100 - x.v / 100 * x.s / 200

/-- The pivot divisor `min(L, 1−L)` of `hsvToHsl`; the hsl→hsv→hsl round
trip is the identity exactly off its zero set. -/
def pivotMin (x : HSVColor) : ℚ := min (pivotL x) (1 - pivotL x)

/-- The clamped HSV target `saturate` computes before committing:
`{h, clamp(s + delta, min, max), v}`. -/
def saturateTarget (c : ColorModel) (delta mx mn : ℚ) : HSVColor :=
  ⟨c.hsv.h, clampJs (c.hsv.s + delta) mn mx, c.hsv.v⟩

/-- Number of rand draws the constructor consumes: up to 3 to synthesize a
seed color, then 4 for the base palette and 3 each for the light and dark
palettes. -/
def drawCount (prm : ColorPaletteParams) : ℕ :=
  match prm.baseColor with
  | some hex =>
    if hex = "" then (match prm.baseSaturation with | some _ => 12 | none => 13) else 10
  | none => match prm.baseSaturation with | some _ => 12 | none => 13

/-- The constantly-zero rand stream (a legal `[0,1)` generator). -/
def zeroRand : ℕ → ℚ := fun _ => 0

/-- A generator built by the constructor from seed `#3459c7` at precision
`1` with the constantly-zero rand stream. -/
def genOne : ColorPaletteGenerator :=
  (ColorPaletteGenerator.runConstructor zeroRand { precision := 1, baseColor := some "#3459c7" }).1

/-- A color with the given HSV value, built through the hsv setter. -/
def miniColor (v : ℚ) : ColorModel := ColorModel.setHsv (ColorModel.ofHex "#000000") ⟨0, 50, v⟩

/-- A small hand-assembled generator state whose pool has three colors,
used to exercise the small-pool fallback of `getDistributedPalette`. -/
def genSmall : ColorPaletteGenerator :=
  ⟨1, 180, miniColor 50, ⟨[miniColor 10, miniColor 50, miniColor 90], [], []⟩⟩

/-- The continuation condition of one rejection-sampling `while` loop of
`getDistributedPalette` at draw cursor `m`: the drawn index is already
chosen, or (when the seed is reserved) the drawn color equals the seed. -/
def rejectedDraw (ρ : ℕ → ℚ) (band : List ColorModel)
    (seed : ColorModel) (excl : Bool) (chosen : List ℕ) (m : ℕ) : Prop :=
  chosen.contains (ColorPaletteGenerator.getRandomIndex ρ m band.length) ∨
    (excl ∧ (((band.getD (ColorPaletteGenerator.getRandomIndex ρ m band.length)
      ColorPaletteGenerator.outOfRangeColor).equals seed : Bool) : Prop))

section ColorModelClaims

open ColorModel

/-- C8: `addToHue(h, add)` returns `(h+add) mod 360` when `h+add > 360`
(the JS `%` agrees with the mathematical mod on this positive branch),
`360 + h + add` when `h+add < 0`, and `h+add` otherwise; in particular
`addToHue(350,20) = 10`, `addToHue(10,-20) = 350`, `addToHue(100,50) = 150`. -/
theorem addToHue_spec (h add : ℚ) :
    (360 < h + add → addToHue h add = (h + add) - 360 * ⌊(h + add) / 360⌋) ∧
    (h + add < 0 → addToHue h add = 360 + h + add) ∧
    (0 ≤ h + add → h + add ≤ 360 → addToHue h add = h + add) ∧
    addToHue 350 20 = 10 ∧ addToHue 10 (-20) = 350 ∧ addToHue 100 50 = 150 := by
  refine ⟨fun hgt => ?_, fun hlt => ?_, fun h0 h360 => ?_, ?_, ?_, ?_⟩
  · rw [addToHue, if_pos hgt, jsMod, jsTrunc,
      if_pos (by positivity : (0 : ℚ) ≤ (h + add) / 360)]
  · rw [addToHue, if_neg (by linarith), if_pos hlt]
  · rw [addToHue, if_neg (by linarith), if_neg (by linarith)]
  · with_unfolding_all rfl
  · with_unfolding_all rfl
  · with_unfolding_all rfl

/-- Witness for C8 at the concrete input `h = 350`, `add = 20`. -/
theorem addToHue_spec_witness :
    (360 : ℚ) < 350 + 20 ∧ addToHue 350 20 = (350 + 20) - 360 * ⌊((350 : ℚ) + 20) / 360⌋ :=
  ⟨of_decide_eq_true (by with_unfolding_all rfl),
    (addToHue_spec 350 20).1 (of_decide_eq_true (by with_unfolding_all rfl))⟩

/-- C9: `hexToRgb` never raises: any string that fails the 6-hex-digit
pattern yields black `{r:0, g:0, b:0}`; on well-formed input the three
channels are parsed, with `hexToRgb('#3459c7') = {r:52, g:89, b:199}` and
`rgbToHex({r:52, g:89, b:199}) = '#3459c7'`. -/
theorem hexToRgb_spec :
    (∀ s : String, hexPattern s = false → hexToRgb s = ⟨0, 0, 0⟩) ∧
    hexToRgb "#3459c7" = ⟨52, 89, 199⟩ ∧ rgbToHex ⟨52, 89, 199⟩ = "#3459c7" := by
  refine ⟨fun s hs => ?_, by with_unfolding_all rfl, by with_unfolding_all rfl⟩
  rw [hexPattern] at hs
  rw [hexToRgb]
  rcases hl : stripHash s.data with _ | ⟨a, _ | ⟨b, _ | ⟨c, _ | ⟨d, _ | ⟨e, _ | ⟨f, _ | ⟨g, t⟩⟩⟩⟩⟩⟩⟩ <;>
    simp_all

/-- Witness for C9 at the concrete malformed input `"zzz"`. -/
theorem hexToRgb_spec_witness :
    hexPattern "zzz" = false ∧ hexToRgb "zzz" = ⟨0, 0, 0⟩ :=
  ⟨by with_unfolding_all rfl, hexToRgb_spec.1 "zzz" (by with_unfolding_all rfl)⟩

/-- C10: for a string of exactly six hex digits without the leading `#`,
the pattern still matches (the prefix is optional) and `hexToRgb` returns
the same RGB triple as for the `#`-prefixed string instead of falling back
to black. -/
theorem hexToRgb_hash_optional (s : String) (h6 : s.data.length = 6)
    (hhex : s.data.all isHexChar = true) :
    hexPattern s = true ∧ hexToRgb ("#" ++ s) = hexToRgb s := by
  have hdata : ("#" ++ s).data = '#' :: s.data := by
    cases s
    rfl
  have hstrip : stripHash s.data = s.data := by
    rcases hd : s.data with _ | ⟨a, t⟩
    · rfl
    · have ha : isHexChar a = true := by
        have := List.all_eq_true.mp hhex
        exact this a (by rw [hd]; exact List.mem_cons_self a t)
      have hsharp : a ≠ '#' := by
        intro heq
        rw [heq] at ha
        exact absurd ha (by with_unfolding_all decide)
      rw [stripHash.eq_def]
      split
      · rename_i rest heq
        exact absurd (List.cons.injEq .. ▸ heq) (by simp [hsharp])
      · rfl
  constructor
  · rw [hexPattern]
    simp only [hstrip, h6, hhex]
    with_unfolding_all decide
  · rw [hexToRgb, hexToRgb, hdata]
    have : stripHash ('#' :: s.data) = s.data := by rw [stripHash]
    rw [this, hstrip]

/-- Witness for C10 at the concrete input `"3459c7"`. -/
theorem hexToRgb_hash_optional_witness :
    ("3459c7" : String).data.length = 6 ∧ ("3459c7" : String).data.all isHexChar = true ∧
    hexPattern "3459c7" = true ∧ hexToRgb ("#" ++ "3459c7") = hexToRgb "3459c7" :=
  ⟨by with_unfolding_all rfl, by with_unfolding_all rfl,
    (hexToRgb_hash_optional "3459c7" (by with_unfolding_all rfl) (by with_unfolding_all rfl)).1,
    (hexToRgb_hash_optional "3459c7" (by with_unfolding_all rfl) (by with_unfolding_all rfl)).2⟩

/-- C5: for every state and every delta/max/min, `brighten` equals the
plain assignment `hsl = hsvToHsl(hsv)` with the hsv value unmodified: the
clamped lightness written into the hsl record is discarded by the
unconditional recompute, so `brighten` is a near no-op on brightness. -/
theorem brighten_spec (c : ColorModel) (delta mx mn : ℚ) :
    brighten c delta mx mn = setHsl c (hsvToHsl c.hsv) := rfl

end ColorModelClaims

section SaturateClaims

open ColorModel

/-- The hsv → hsl → hsv round trip of the pivot pair is the identity away
from the zero set of the pivot divisor `min(L, 1−L)`. -/
theorem hslToHsv_hsvToHsl (x : HSVColor) (hm : pivotMin x ≠ 0) :
    hslToHsv (hsvToHsl x) = x := by
  obtain ⟨h, s, v⟩ := x
  simp only [pivotMin, pivotL] at hm
  simp only [hsvToHsl, hslToHsv]
  set V := v / 100 with hVdef
  set L := V - V * s / 200 with hLdef
  have hVne : V ≠ 0 := by
    intro h0
    apply hm
    simp only [hLdef, h0]
    norm_num
  rw [if_neg hm]
  have hL100 : L * 100 / 100 = L := by ring
  rw [hL100]
  have hVP : 100 * (V - L) / min L (1 - L) / 100 * min L (1 - L) + L = V := by
    have hm' : min L (1 - L) ≠ 0 := hm
    field_simp
    ring
  rw [hVP, if_neg hVne]
  have hs' : 100 * (2 - 2 * L / V) = s := by
    rw [hLdef]
    field_simp
    ring
  have hv' : V * 100 = v := by rw [hVdef]; ring
  rw [hs', hv']

/-- Counterexample to C6 as stated: on black (`v = 0`), `saturate(50)`
leaves the stored hsv saturation at `0`, not at the clamped target `50`,
because the commit goes through the hsl setter and the hsv → hsl → hsv
round trip collapses the saturation when the pivot divisor vanishes. -/
theorem saturate_counterexample :
    (saturate (ofHex "#000000") 50 100 0).hsv ≠ saturateTarget (ofHex "#000000") 50 100 0 ∧
    saturateTarget (ofHex "#000000") 50 100 0 = ⟨0, 50, 0⟩ :=
  ⟨of_decide_eq_true (by with_unfolding_all rfl), by with_unfolding_all rfl⟩

/-- C6 amended: `saturate(delta, max, min)` computes the clamped HSV target
`{h, clamp(s+delta, min, max), v}` and commits it through the hsl setter as
`hsl = hsvToHsl(target)`; the resulting hsl, rgb and hex equal the HSV-setter
derivations of the target, while the stored hsv is the round trip
`hslToHsv (hsvToHsl target)`, which equals the clamped target whenever the
pivot divisor `min(L, 1−L)` of the target is nonzero. -/
theorem saturate_spec (c : ColorModel) (delta mx mn : ℚ) :
    saturate c delta mx mn = setHsl c (hsvToHsl (saturateTarget c delta mx mn)) ∧
    (saturate c delta mx mn).hsl = (setHsv c (saturateTarget c delta mx mn)).hsl ∧
    (saturate c delta mx mn).rgb = (setHsv c (saturateTarget c delta mx mn)).rgb ∧
    (saturate c delta mx mn).hex = (setHsv c (saturateTarget c delta mx mn)).hex ∧
    (saturate c delta mx mn).hsv = hslToHsv (hsvToHsl (saturateTarget c delta mx mn)) ∧
    (pivotMin (saturateTarget c delta mx mn) ≠ 0 →
      (saturate c delta mx mn).hsv = saturateTarget c delta mx mn) :=
  ⟨rfl, rfl, rfl, rfl, rfl, fun hm => hslToHsv_hsvToHsl _ hm⟩

/-- Witness for C6 (amended) at the concrete input `#3459c7`, `delta = 10`. -/
theorem saturate_spec_witness :
    pivotMin (saturateTarget (ofHex "#3459c7") 10 100 0) ≠ 0 ∧
    (saturate (ofHex "#3459c7") 10 100 0).hsv = saturateTarget (ofHex "#3459c7") 10 100 0 :=
  ⟨of_decide_eq_true (by with_unfolding_all rfl),
    (saturate_spec (ofHex "#3459c7") 10 100 0).2.2.2.2.2
      (of_decide_eq_true (by with_unfolding_all rfl))⟩

end SaturateClaims

section LengthClaims

open ColorPaletteGenerator

/-- The base palette always has `2·precision + 1` entries: the seed plus
`precision` prepended and `precision` appended hue shifts. -/
theorem generateBasePalette_length (ρ : ℕ → ℚ) (g : ColorPaletteGenerator) (n : ℕ) :
    (generateBasePalette ρ g n).1.length = 2 * g.precision + 1 := by
  unfold generateBasePalette
  rw [List.length_append, List.length_append, List.length_reverse, List.length_map,
    List.length_map, List.length_range]
  simp
  omega

/-- The light palette maps the base palette entrywise. -/
theorem generateLightPalette_length (ρ : ℕ → ℚ) (base : List ColorModel) (n : ℕ) :
    (generateLightPalette ρ base n).1.length = base.length := by
  simp [generateLightPalette]

/-- The dark palette maps the base palette entrywise. -/
theorem generateDarkPalette_length (ρ : ℕ → ℚ) (base : List ColorModel) (n : ℕ) :
    (generateDarkPalette ρ base n).1.length = base.length := by
  simp [generateDarkPalette]

/-- `generatePalettes` preserves the configuration fields and produces
three palettes of length `2·precision + 1` each. -/
theorem generatePalettes_lengths (ρ : ℕ → ℚ) (g : ColorPaletteGenerator) (n : ℕ) :
    (generatePalettes ρ g n).1.precision = g.precision ∧
    (generatePalettes ρ g n).1.palettes.base.length = 2 * g.precision + 1 ∧
    (generatePalettes ρ g n).1.palettes.light.length = 2 * g.precision + 1 ∧
    (generatePalettes ρ g n).1.palettes.dark.length = 2 * g.precision + 1 := by
  refine ⟨rfl, ?_, ?_, ?_⟩
  · exact generateBasePalette_length ρ g n
  · show (generateLightPalette ρ (generateBasePalette ρ g n).1 _).1.length = _
    rw [generateLightPalette_length, generateBasePalette_length]
  · show (generateDarkPalette ρ (generateBasePalette ρ g n).1 _).1.length = _
    rw [generateDarkPalette_length, generateBasePalette_length]

/-- C2: for every precision `≥ 1` and every configuration, after palette
generation the base palette has `2·precision + 1` entries, the light and
dark palettes have the same length as the base palette, and `fullPalette`
has `3·(2·precision + 1)` entries. -/
theorem palette_lengths (ρ : ℕ → ℚ) (prm : ColorPaletteParams) (hp : 1 ≤ prm.precision) :
    (runConstructor ρ prm).1.palettes.base.length = 2 * prm.precision + 1 ∧
    (runConstructor ρ prm).1.palettes.light.length =
      (runConstructor ρ prm).1.palettes.base.length ∧
    (runConstructor ρ prm).1.palettes.dark.length =
      (runConstructor ρ prm).1.palettes.base.length ∧
    (fullPalette (runConstructor ρ prm).1).length = 3 * (2 * prm.precision + 1) := by
  clear hp
  have key : ∀ g n, g.precision = prm.precision →
      (generatePalettes ρ g n).1.palettes.base.length = 2 * prm.precision + 1 ∧
      (generatePalettes ρ g n).1.palettes.light.length =
        (generatePalettes ρ g n).1.palettes.base.length ∧
      (generatePalettes ρ g n).1.palettes.dark.length =
        (generatePalettes ρ g n).1.palettes.base.length ∧
      (fullPalette (generatePalettes ρ g n).1).length = 3 * (2 * prm.precision + 1) := by
    intro g n hg
    obtain ⟨-, hb, hl, hd⟩ := generatePalettes_lengths ρ g n
    rw [hg] at hb hl hd
    refine ⟨hb, by rw [hl, hb], by rw [hd, hb], ?_⟩
    simp only [fullPalette, List.length_append]
    omega
  rcases prm with ⟨p, hr, bc, bs⟩
  rcases bc with _ | hex
  · rcases bs with _ | v
    · exact key _ 3 rfl
    · exact key _ 2 rfl
  · by_cases h0 : hex = ""
    · simp only [runConstructor, h0, if_pos rfl]
      rcases bs with _ | v
      · exact key _ 3 rfl
      · exact key _ 2 rfl
    · simp only [runConstructor, if_neg h0]
      exact key _ 0 rfl

/-- Witness for C2 at the default precision `4` and seed `#3459c7` with the
zero rand stream. -/
theorem palette_lengths_witness :
    1 ≤ ({ baseColor := some "#3459c7" } : ColorPaletteParams).precision ∧
    (runConstructor zeroRand { baseColor := some "#3459c7" }).1.palettes.base.length = 2 * 4 + 1 ∧
    (fullPalette (runConstructor zeroRand { baseColor := some "#3459c7" }).1).length =
      3 * (2 * 4 + 1) :=
  ⟨by norm_num,
    (palette_lengths zeroRand { baseColor := some "#3459c7" } (by norm_num)).1,
    (palette_lengths zeroRand { baseColor := some "#3459c7" } (by norm_num)).2.2.2⟩

end LengthClaims

section DeterminismClaims

open ColorPaletteGenerator

/-- `generateBasePalette` reads only the four draws at cursors
`n, …, n+3` of the rand stream. -/
theorem generateBasePalette_congr (ρ₁ ρ₂ : ℕ → ℚ) (g : ColorPaletteGenerator) (n : ℕ)
    (h : ∀ i, n ≤ i → i < n + 4 → ρ₁ i = ρ₂ i) :
    generateBasePalette ρ₁ g n = generateBasePalette ρ₂ g n := by
  unfold generateBasePalette
  simp only [h n (le_refl n) (by omega), h (n + 1) (by omega) (by omega),
    h (n + 2) (by omega) (by omega), h (n + 3) (by omega) (by omega)]

/-- `generateLightPalette` reads only the three draws at cursors
`n, n+1, n+2`. -/
theorem generateLightPalette_congr (ρ₁ ρ₂ : ℕ → ℚ) (base : List ColorModel) (n : ℕ)
    (h : ∀ i, n ≤ i → i < n + 3 → ρ₁ i = ρ₂ i) :
    generateLightPalette ρ₁ base n = generateLightPalette ρ₂ base n := by
  unfold generateLightPalette
  simp only [h n (le_refl n) (by omega), h (n + 1) (by omega) (by omega),
    h (n + 2) (by omega) (by omega)]

/-- `generateDarkPalette` reads only the three draws at cursors
`n, n+1, n+2`. -/
theorem generateDarkPalette_congr (ρ₁ ρ₂ : ℕ → ℚ) (base : List ColorModel) (n : ℕ)
    (h : ∀ i, n ≤ i → i < n + 3 → ρ₁ i = ρ₂ i) :
    generateDarkPalette ρ₁ base n = generateDarkPalette ρ₂ base n := by
  unfold generateDarkPalette
  simp only [h n (le_refl n) (by omega), h (n + 1) (by omega) (by omega),
    h (n + 2) (by omega) (by omega)]

/-- `generatePalettes` reads only the ten draws at cursors `n, …, n+9`. -/
theorem generatePalettes_congr (ρ₁ ρ₂ : ℕ → ℚ) (g : ColorPaletteGenerator) (n : ℕ)
    (h : ∀ i, n ≤ i → i < n + 10 → ρ₁ i = ρ₂ i) :
    generatePalettes ρ₁ g n = generatePalettes ρ₂ g n := by
  have hb : generateBasePalette ρ₁ g n = generateBasePalette ρ₂ g n :=
    generateBasePalette_congr ρ₁ ρ₂ g n fun i h1 h2 => h i h1 (by omega)
  have hbc : (generateBasePalette ρ₂ g n).2 = n + 4 := rfl
  have hl : ∀ b, generateLightPalette ρ₁ b (n + 4) = generateLightPalette ρ₂ b (n + 4) :=
    fun b => generateLightPalette_congr ρ₁ ρ₂ b (n + 4) fun i h1 h2 => h i (by omega) (by omega)
  have hlc : ∀ b, (generateLightPalette ρ₂ b (n + 4)).2 = n + 7 := fun _ => rfl
  have hd : ∀ b, generateDarkPalette ρ₁ b (n + 7) = generateDarkPalette ρ₂ b (n + 7) :=
    fun b => generateDarkPalette_congr ρ₁ ρ₂ b (n + 7) fun i h1 h2 => h i (by omega) (by omega)
  simp only [generatePalettes]
  rw [hb, hbc, hl, hlc, hd]

/-- The constructor reads only the draws at cursors `0, …, drawCount − 1`:
up to three to synthesize the seed color and ten for the palettes. -/
theorem runConstructor_congr (ρ₁ ρ₂ : ℕ → ℚ) (prm : ColorPaletteParams)
    (h : ∀ i, i < drawCount prm → ρ₁ i = ρ₂ i) :
    runConstructor ρ₁ prm = runConstructor ρ₂ prm := by
  rcases prm with ⟨p, hr, bc, bs⟩
  rcases bs with _ | v
  · rcases bc with _ | hex
    · have hh : ∀ i, i < 13 → ρ₁ i = ρ₂ i := fun i hi => h i hi
      simp only [runConstructor, runRandomSeed]
      simp only [hh 0 (by omega), hh 1 (by omega), hh 2 (by omega)]
      exact generatePalettes_congr ρ₁ ρ₂ _ 3 fun i h1 h2 => hh i (by omega)
    · by_cases h0 : hex = ""
      · have hh : ∀ i, i < 13 → ρ₁ i = ρ₂ i := by
          intro i hi
          refine h i ?_
          simp only [drawCount, if_pos h0]
          omega
        subst h0
        simp only [runConstructor, runRandomSeed, if_pos]
        simp only [hh 0 (by omega), hh 1 (by omega), hh 2 (by omega)]
        exact generatePalettes_congr ρ₁ ρ₂ _ 3 fun i h1 h2 => hh i (by omega)
      · have hh : ∀ i, i < 10 → ρ₁ i = ρ₂ i := by
          intro i hi
          refine h i ?_
          simp only [drawCount, if_neg h0]
          omega
        simp only [runConstructor]
        rw [if_neg h0, if_neg h0]
        exact generatePalettes_congr ρ₁ ρ₂ _ 0 fun i h1 h2 => hh i (by omega)
  · rcases bc with _ | hex
    · have hh : ∀ i, i < 12 → ρ₁ i = ρ₂ i := fun i hi => h i hi
      simp only [runConstructor, runRandomSeed]
      simp only [hh 0 (by omega), hh 1 (by omega)]
      exact generatePalettes_congr ρ₁ ρ₂ _ 2 fun i h1 h2 => hh i (by omega)
    · by_cases h0 : hex = ""
      · have hh : ∀ i, i < 12 → ρ₁ i = ρ₂ i := by
          intro i hi
          refine h i ?_
          simp only [drawCount, if_pos h0]
          omega
        subst h0
        simp only [runConstructor, runRandomSeed, if_pos]
        simp only [hh 0 (by omega), hh 1 (by omega)]
        exact generatePalettes_congr ρ₁ ρ₂ _ 2 fun i h1 h2 => hh i (by omega)
      · have hh : ∀ i, i < 10 → ρ₁ i = ρ₂ i := by
          intro i hi
          refine h i ?_
          simp only [drawCount, if_neg h0]
          omega
        simp only [runConstructor]
        rw [if_neg h0, if_neg h0]
        exact generatePalettes_congr ρ₁ ρ₂ _ 0 fun i h1 h2 => hh i (by omega)

/-- C1: palette generation and the two selection algorithms are functions
of the injected rand's value sequence alone.  Two runs whose streams agree
on the draws the constructor consumes build identical generators, and with
identical streams the `getRandomPalette` / `getDistributedPalette` outputs
of identically-regenerated generators coincide. -/
theorem rand_determinism (ρ₁ ρ₂ : ℕ → ℚ) (prm : ColorPaletteParams)
    (o : RandomPaletteOptions) (od : DistributedPaletteOptions) (fuel n : ℕ) :
    ((∀ i, i < drawCount prm → ρ₁ i = ρ₂ i) →
      runConstructor ρ₁ prm = runConstructor ρ₂ prm) ∧
    ((∀ i, ρ₁ i = ρ₂ i) →
      getRandomPalette ρ₁ (runConstructor ρ₁ prm).1 o n =
        getRandomPalette ρ₂ (runConstructor ρ₂ prm).1 o n ∧
      getDistributedPalette ρ₁ (runConstructor ρ₁ prm).1 od fuel n =
        getDistributedPalette ρ₂ (runConstructor ρ₂ prm).1 od fuel n) := by
  refine ⟨runConstructor_congr ρ₁ ρ₂ prm, fun h => ?_⟩
  have : ρ₁ = ρ₂ := funext h
  subst this
  exact ⟨rfl, rfl⟩

/-- Witness for C1 at the zero stream and seed `#3459c7`. -/
theorem rand_determinism_witness :
    runConstructor zeroRand { baseColor := some "#3459c7" } =
      runConstructor zeroRand { baseColor := some "#3459c7" } ∧
    getRandomPalette zeroRand (runConstructor zeroRand { baseColor := some "#3459c7" }).1 {} 10 =
      getRandomPalette zeroRand (runConstructor zeroRand { baseColor := some "#3459c7" }).1 {} 10 :=
  ⟨(rand_determinism zeroRand zeroRand { baseColor := some "#3459c7" } {} {} 0 10).1
      (fun _ _ => rfl),
    ((rand_determinism zeroRand zeroRand { baseColor := some "#3459c7" } {} {} 0 10).2
      (fun _ => rfl)).1⟩

end DeterminismClaims

section SortLemmas

open ColorPaletteGenerator

/-- Inserting with the rand comparator yields a permutation of `x :: l`. -/
theorem shuffleInsert_perm {α : Type} (ρ : ℕ → ℚ) (x : α) :
    ∀ (l : List α) (n : ℕ), (shuffleInsert ρ x l n).1.Perm (x :: l)
  | [], n => by simp [shuffleInsert]
  | y :: ys, n => by
    rw [shuffleInsert]
    split
    · exact List.Perm.refl _
    · exact ((shuffleInsert_perm ρ x ys (n + 1)).cons y).trans (List.Perm.swap x y ys)

/-- The rand-comparator shuffle is a permutation. -/
theorem shuffleJs_perm {α : Type} (ρ : ℕ → ℚ) :
    ∀ (l : List α) (n : ℕ), (shuffleJs ρ l n).1.Perm l
  | [], n => List.Perm.refl _
  | x :: xs, n => by
    rw [shuffleJs]
    exact (shuffleInsert_perm ρ x _ _).trans ((shuffleJs_perm ρ xs n).cons x)

/-- The shuffle preserves the length. -/
theorem shuffleJs_length {α : Type} (ρ : ℕ → ℚ) (l : List α) (n : ℕ) :
    (shuffleJs ρ l n).1.length = l.length :=
  (shuffleJs_perm ρ l n).length_eq

/-- Stable insertion by value yields a permutation of `x :: l`. -/
theorem insertByV_perm (x : ColorModel) :
    ∀ l : List ColorModel, (insertByV x l).Perm (x :: l)
  | [] => List.Perm.refl _
  | y :: ys => by
    rw [insertByV]
    split
    · exact ((insertByV_perm x ys).cons y).trans (List.Perm.swap x y ys)
    · exact List.Perm.refl _

/-- The stable sort by brightness is a permutation. -/
theorem sortByV_perm (l : List ColorModel) : (sortByV l).Perm l := by
  have key : ∀ (l acc : List ColorModel),
      (l.foldl (fun acc x => insertByV x acc) acc).Perm (acc ++ l) := by
    intro l
    induction l with
    | nil => intro acc; simp
    | cons x xs ih =>
      intro acc
      refine (ih (insertByV x acc)).trans ?_
      refine ((insertByV_perm x acc).append_right xs).trans ?_
      simpa using List.perm_middle.symm
  simpa using key l []

end SortLemmas

section RandomPaletteClaims

open ColorPaletteGenerator

set_option maxRecDepth 4000

/-- C4 (divergence witness): the checked-in TypeScript `getRandomPalette`
accepts no `minBrightness`/`maxBrightness` options and applies no brightness
filter, contradicting the repository's own declaration file and README: no
brightness bound `minBrightness` can hold of its output, exhibited here on a
concrete generator whose output keeps a color of brightness `< 99` that the
documented filter would reject. -/
theorem getRandomPalette_ignores_brightness :
    ¬ (∀ minBrightness : ℚ, ∀ c ∈ (getRandomPalette zeroRand genSmall {} 0).1,
        c ∈ fullPalette genSmall → minBrightness ≤ c.hsv.v) := fun h =>
  absurd (h 99)
    (of_decide_eq_true (by with_unfolding_all rfl))

end RandomPaletteClaims

section TerminationClaims

open ColorPaletteGenerator

/-- The constant-zero stream always draws index `0`. -/
theorem getRandomIndex_zeroRand (n len : ℕ) : getRandomIndex zeroRand n len = 0 := by
  simp [getRandomIndex, zeroRand]

/-- Once index `0` is chosen, the rejection loop fed by the constant-zero
stream rejects every draw, whatever its fuel. -/
theorem sampleIdx_zeroRand_stuck (band : List ColorModel) (seed : ColorModel) (excl : Bool)
    (chosen : List ℕ) (h0 : chosen.contains 0 = true) :
    ∀ (fuel n : ℕ), sampleIdx zeroRand band seed excl chosen fuel n = none
  | 0, _ => rfl
  | fuel + 1, n => by
    rw [sampleIdx, getRandomIndex_zeroRand, if_pos (Or.inl h0)]
    exact sampleIdx_zeroRand_stuck band seed excl chosen h0 fuel (n + 1)

/-- With nothing chosen yet and no seed reservation, the first draw of the
constant-zero stream is accepted immediately. -/
theorem sampleIdx_zeroRand_first (band : List ColorModel) (seed : ColorModel) (f n : ℕ) :
    sampleIdx zeroRand band seed false [] (f + 1) n = some (0, n + 1) := by
  rw [sampleIdx, getRandomIndex_zeroRand, if_neg (by simp)]

/-- A single-iteration band loop on the constant-zero stream picks entry 0. -/
theorem sampleBand_zeroRand_one (band : List ColorModel) (seed : ColorModel)
    (acc : List ColorModel) (n f iters : ℕ) (h1 : iters = 1) :
    sampleBand zeroRand band seed false (f + 1) iters [] acc n =
      some (acc ++ [band.getD 0 outOfRangeColor], n + 1) := by
  subst h1
  rw [sampleBand, sampleIdx_zeroRand_first]
  rfl

/-- A band loop that needs at least two samples never finishes on the
constant-zero stream: the second rejection loop redraws index 0 forever,
so every fuel is exhausted. -/
theorem sampleBand_zeroRand_stuck (band : List ColorModel) (seed : ColorModel)
    (acc : List ColorModel) (n iters : ℕ) (h2 : 2 ≤ iters) (fuel : ℕ) :
    sampleBand zeroRand band seed false fuel iters [] acc n = none := by
  obtain ⟨k, rfl⟩ : ∃ k, iters = k + 2 := ⟨iters - 2, by omega⟩
  cases fuel with
  | zero => rfl
  | succ f =>
    rw [show k + 2 = (k + 1) + 1 from rfl, sampleBand, sampleIdx_zeroRand_first]
    show sampleBand zeroRand band seed false (f + 1) (k + 1)
      [0] (acc ++ [band.getD 0 outOfRangeColor]) (n + 1) = none
    rw [sampleBand, sampleIdx_zeroRand_stuck band seed false [0] (by simp)]

set_option maxRecDepth 4000

/-- Counterexample to C7 as stated: the constant-zero function is a legal
`[0,1)` rand, yet on the precision-1 generator it builds,
`getDistributedPalette({length: 6})` never terminates — its middle-band
rejection loop needs a second fresh index but every draw repeats index 0,
so the run exceeds every fuel bound. -/
theorem distributed_palette_diverges :
    (∀ i, 0 ≤ zeroRand i ∧ zeroRand i < 1) ∧
    ∀ fuel, getDistributedPalette zeroRand genOne { length := 6 } fuel 10 = none := by
  refine ⟨fun i => by norm_num [zeroRand], fun fuel => ?_⟩
  cases fuel with
  | zero => with_unfolding_all rfl
  | succ f =>
    simp only [getDistributedPalette]
    dsimp only
    split
    · rename_i hcond
      exact absurd hcond (of_decide_eq_true (by with_unfolding_all rfl))
    · rw [sampleBand_zeroRand_one]
      case h1 => exact of_decide_eq_true (by with_unfolding_all rfl)
      dsimp only
      rw [sampleBand_zeroRand_one]
      case h1 => exact of_decide_eq_true (by with_unfolding_all rfl)
      dsimp only
      rw [sampleBand_zeroRand_stuck]
      case h2 => exact of_decide_eq_true (by with_unfolding_all rfl)

/-- C7 amended: a band's rejection-sampling loop performs finitely many
draws exactly under an acceptance condition on the stream, not for every
`[0,1)`-valued rand.  Whenever the draw `k` positions ahead is acceptable —
not already chosen and, when the seed is reserved, not the seed color —
the loop returns within `k + 1` draws. -/
theorem sampleIdx_terminates (ρ : ℕ → ℚ) (band : List ColorModel) (seed : ColorModel)
    (excl : Bool) (chosen : List ℕ) (k : ℕ) :
    ∀ n, ¬ rejectedDraw ρ band seed excl chosen (n + k) →
    (sampleIdx ρ band seed excl chosen (k + 1) n).isSome = true := by
  induction k with
  | zero =>
    intro n hn
    rw [sampleIdx, if_neg (by simpa [rejectedDraw] using hn)]
    rfl
  | succ k ih =>
    intro n hn
    by_cases hrej : rejectedDraw ρ band seed excl chosen n
    · rw [sampleIdx, if_pos (by simpa [rejectedDraw] using hrej)]
      exact ih (n + 1) (by rw [show n + 1 + k = n + (k + 1) from by omega]; exact hn)
    · rw [sampleIdx, if_neg (by simpa [rejectedDraw] using hrej)]
      rfl

/-- Witness for C7 (amended) at a concrete two-color band with nothing
chosen: the very first draw is acceptable, so fuel 1 suffices. -/
theorem sampleIdx_terminates_witness :
    ¬ rejectedDraw zeroRand [miniColor 10, miniColor 20] (miniColor 50) false [] (0 + 0) ∧
    (sampleIdx zeroRand [miniColor 10, miniColor 20] (miniColor 50) false [] (0 + 1) 0).isSome =
      true :=
  ⟨by simp [rejectedDraw],
    sampleIdx_terminates zeroRand [miniColor 10, miniColor 20] (miniColor 50) false [] 0 0
      (by simp [rejectedDraw])⟩

end TerminationClaims

section RangeLemmas

open ColorModel ColorPaletteGenerator

theorem char_le_toNat {a b : Char} (h : a ≤ b) : a.toNat ≤ b.toNat := h

theorem hexCharVal_le (c : Char) (h : isHexChar c = true) : hexCharVal c ≤ 15 := by
  rw [isHexChar] at h
  simp only [Bool.or_eq_true, Bool.and_eq_true, decide_eq_true_eq] at h
  unfold hexCharVal
  have e1 : 'a'.toNat = 97 := rfl
  have e2 : 'f'.toNat = 102 := rfl
  have e3 : 'A'.toNat = 65 := rfl
  have e4 : 'F'.toNat = 70 := rfl
  have e5 : '0'.toNat = 48 := rfl
  have e6 : '9'.toNat = 57 := rfl
  rcases h with (⟨h1, h2⟩ | ⟨h1, h2⟩) | ⟨h1, h2⟩ <;>
      have h1' := char_le_toNat h1 <;> have h2' := char_le_toNat h2 <;>
      split_ifs with hA hB
  · omega
  · exact absurd ⟨h1, h2⟩ hA
  · exact absurd ⟨h1, h2⟩ hA
  · have := char_le_toNat hA.1
    omega
  · omega
  · exact absurd ⟨h1, h2⟩ hB
  · have := char_le_toNat hA.1
    omega
  · have := char_le_toNat hB.1
    omega
  · omega

theorem hexToRgb_range (s : String) :
    (0 ≤ (hexToRgb s).r ∧ (hexToRgb s).r ≤ 255) ∧
    (0 ≤ (hexToRgb s).g ∧ (hexToRgb s).g ≤ 255) ∧
    (0 ≤ (hexToRgb s).b ∧ (hexToRgb s).b ≤ 255) := by
  unfold hexToRgb
  rcases stripHash s.data with _ | ⟨a, _ | ⟨b, _ | ⟨c, _ | ⟨d, _ | ⟨e, _ | ⟨f, _ | ⟨g, t⟩⟩⟩⟩⟩⟩⟩ <;>
    try norm_num
  split_ifs with hall
  · simp only [List.all_eq_true, List.mem_cons, List.not_mem_nil, or_false] at hall
    obtain ⟨ha, hb, hc, hd, he, hf⟩ := hall
    dsimp only
    have ha' := hexCharVal_le a ha
    have hb' := hexCharVal_le b hb
    have hc' := hexCharVal_le c hc
    have hd' := hexCharVal_le d hd
    have he' := hexCharVal_le e he
    have hf' := hexCharVal_le f hf
    have h1 : hexCharVal a * 16 + hexCharVal b ≤ 255 := by omega
    have h2 : hexCharVal c * 16 + hexCharVal d ≤ 255 := by omega
    have h3 : hexCharVal e * 16 + hexCharVal f ≤ 255 := by omega
    exact ⟨⟨by positivity, by exact_mod_cast h1⟩,
      ⟨by positivity, by exact_mod_cast h2⟩, ⟨by positivity, by exact_mod_cast h3⟩⟩
  · norm_num

theorem floor_cast_bounds {x : ℚ} (h0 : 0 ≤ x) (h100 : x ≤ 100) :
    0 ≤ ((⌊x⌋ : ℤ) : ℚ) ∧ ((⌊x⌋ : ℤ) : ℚ) ≤ 100 := by
  constructor
  · exact_mod_cast Int.le_floor.mpr (by exact_mod_cast h0)
  · have := Int.floor_le x
    linarith

theorem rgbToHsl_range (c : RGBColor) (hr : 0 ≤ c.r ∧ c.r ≤ 255) (hg : 0 ≤ c.g ∧ c.g ≤ 255)
    (hb : 0 ≤ c.b ∧ c.b ≤ 255) :
    (0 ≤ (rgbToHsl c).s ∧ (rgbToHsl c).s ≤ 100) ∧
    (0 ≤ (rgbToHsl c).l ∧ (rgbToHsl c).l ≤ 100) := by
  simp only [rgbToHsl]
  have hr' : 0 ≤ c.r / 255 ∧ c.r / 255 ≤ 1 :=
    ⟨div_nonneg hr.1 (by norm_num), (div_le_one (by norm_num)).mpr (by linarith [hr.2])⟩
  have hg' : 0 ≤ c.g / 255 ∧ c.g / 255 ≤ 1 :=
    ⟨div_nonneg hg.1 (by norm_num), (div_le_one (by norm_num)).mpr (by linarith [hg.2])⟩
  have hb' : 0 ≤ c.b / 255 ∧ c.b / 255 ≤ 1 :=
    ⟨div_nonneg hb.1 (by norm_num), (div_le_one (by norm_num)).mpr (by linarith [hb.2])⟩
  set r := c.r / 255 with hrdef
  set g := c.g / 255 with hgdef
  set b := c.b / 255 with hbdef
  have hmx1 : max r (max g b) ≤ 1 := max_le hr'.2 (max_le hg'.2 hb'.2)
  have hmn0 : 0 ≤ min r (min g b) := le_min hr'.1 (le_min hg'.1 hb'.1)
  have hmnmx : min r (min g b) ≤ max r (max g b) :=
    (min_le_left _ _).trans (le_max_left _ _)
  set mx := max r (max g b)
  set mn := min r (min g b)
  have hl0 : 0 ≤ (mx + mn) / 2 * 100 := by
    have : (0 : ℚ) ≤ mx := le_trans hmn0 hmnmx
    positivity
  have hl100 : (mx + mn) / 2 * 100 ≤ 100 := by nlinarith
  split
  · exact ⟨⟨by norm_num, by norm_num⟩, floor_cast_bounds hl0 hl100⟩
  rename_i heq
  dsimp only
  split_ifs with hgt
  · -- l > 0.5 case
    have hlt : mn < mx := lt_of_le_of_ne hmnmx (by simpa using fun h => heq h.symm)
    have hden : 0 < 2 - mx - mn := by
      rcases lt_or_le mn 1 with h1 | h1
      · linarith
      · linarith [hlt.trans_le hmx1]
    have hs0 : 0 ≤ (mx - mn) / (2 - mx - mn) := div_nonneg (by linarith) (by linarith)
    have hs1 : (mx - mn) / (2 - mx - mn) ≤ 1 := (div_le_one hden).mpr (by linarith)
    constructor
    · exact floor_cast_bounds (by nlinarith) (by nlinarith)
    · exact floor_cast_bounds hl0 hl100
  · -- l ≤ 0.5 case
    have hlt : mn < mx := lt_of_le_of_ne hmnmx (by simpa using fun h => heq h.symm)
    have hden : 0 < mx + mn := by
      have : 0 < mx := lt_of_le_of_lt hmn0 hlt
      linarith
    have hs0 : 0 ≤ (mx - mn) / (mx + mn) := div_nonneg (by linarith) (by linarith)
    have hs1 : (mx - mn) / (mx + mn) ≤ 1 := (div_le_one hden).mpr (by linarith)
    constructor
    · exact floor_cast_bounds (by nlinarith) (by nlinarith)
    · exact floor_cast_bounds hl0 hl100



theorem hslToHsv_range (c : HSLColor) (hs : 0 ≤ c.s ∧ c.s ≤ 100) (hl : 0 ≤ c.l ∧ c.l ≤ 100) :
    (0 ≤ (hslToHsv c).s ∧ (hslToHsv c).s ≤ 100) ∧
    (0 ≤ (hslToHsv c).v ∧ (hslToHsv c).v ≤ 100) := by
  simp only [hslToHsv]
  set L := c.l / 100 with hLdef
  have hL : 0 ≤ L ∧ L ≤ 1 :=
    ⟨div_nonneg hl.1 (by norm_num), (div_le_one (by norm_num)).mpr (by linarith [hl.2])⟩
  have hm0 : 0 ≤ min L (1 - L) := le_min hL.1 (by linarith [hL.2])
  have hs' : 0 ≤ c.s / 100 ∧ c.s / 100 ≤ 1 :=
    ⟨div_nonneg hs.1 (by norm_num), (div_le_one (by norm_num)).mpr (by linarith [hs.2])⟩
  set V := c.s / 100 * min L (1 - L) + L with hVdef
  have hmle : c.s / 100 * min L (1 - L) ≤ min L (1 - L) :=
    mul_le_of_le_one_left hm0 hs'.2
  have hprod : 0 ≤ c.s / 100 * min L (1 - L) := mul_nonneg hs'.1 hm0
  have hV0 : 0 ≤ V := by simp only [hVdef]; linarith [hL.1]
  have hVL : L ≤ V := by simp only [hVdef]; linarith
  have hV1 : V ≤ 1 := by
    have := min_le_right L (1 - L)
    simp only [hVdef]
    linarith
  have hV2L : V ≤ 2 * L := by
    have := min_le_left L (1 - L)
    simp only [hVdef]
    linarith
  refine ⟨?_, by constructor <;> nlinarith⟩
  split_ifs with hVz
  · norm_num
  · have hVpos : 0 < V := lt_of_le_of_ne hV0 (Ne.symm hVz)
    constructor
    · have : L / V ≤ 1 := (div_le_one hVpos).mpr hVL
      have h2LV : 2 * L / V = 2 * (L / V) := by ring
      nlinarith
    · have : 1 ≤ 2 * L / V := (one_le_div hVpos).mpr (by linarith)
      nlinarith

theorem hsvToHsl_range (c : HSVColor) (hs : 0 ≤ c.s ∧ c.s ≤ 100) (hv : 0 ≤ c.v ∧ c.v ≤ 100) :
    (0 ≤ (hsvToHsl c).s ∧ (hsvToHsl c).s ≤ 100) ∧
    (0 ≤ (hsvToHsl c).l ∧ (hsvToHsl c).l ≤ 100) := by
  simp only [hsvToHsl]
  set V := c.v / 100 with hVdef
  have hV : 0 ≤ V ∧ V ≤ 1 :=
    ⟨div_nonneg hv.1 (by norm_num), (div_le_one (by norm_num)).mpr (by linarith [hv.2])⟩
  have hVs0 : 0 ≤ V * c.s / 200 := div_nonneg (mul_nonneg hV.1 hs.1) (by norm_num)
  have hVsV : V * c.s / 200 ≤ V / 2 := by nlinarith [hs.2, hV.1]
  set L := V - V * c.s / 200 with hLdef
  have hL0 : 0 ≤ L := by simp only [hLdef]; linarith
  have hLV : L ≤ V := by simp only [hLdef]; linarith
  have hL1 : L ≤ 1 := hLV.trans hV.2
  have hVLm : V - L ≤ min L (1 - L) := by
    refine le_min ?_ (by linarith [hV.2])
    simp only [hLdef]
    nlinarith [hs.2, hV.1]
  refine ⟨?_, by constructor <;> nlinarith⟩
  split_ifs with hmz
  · norm_num
  · have hm0 : 0 ≤ min L (1 - L) := le_min hL0 (by linarith)
    have hmpos : 0 < min L (1 - L) := lt_of_le_of_ne hm0 (Ne.symm hmz)
    constructor
    · have hVL0 : 0 ≤ V - L := by simp only [hLdef]; linarith
      positivity
    · rw [div_le_iff hmpos]
      nlinarith [hVLm]

theorem clampJs_range (x : ℚ) : 0 ≤ clampJs x 0 100 ∧ clampJs x 0 100 ≤ 100 := by
  unfold clampJs
  split_ifs <;> constructor <;> linarith

theorem ofHex_hsv_range (hex : String) :
    (0 ≤ (ofHex hex).hsv.s ∧ (ofHex hex).hsv.s ≤ 100) ∧
    (0 ≤ (ofHex hex).hsv.v ∧ (ofHex hex).hsv.v ≤ 100) := by
  have h1 := hexToRgb_range hex
  have h2 := rgbToHsl_range (hexToRgb hex) h1.1 h1.2.1 h1.2.2
  have h3 := hslToHsv_range (rgbToHsl (hexToRgb hex)) h2.1 h2.2
  exact h3

theorem saturate_hsv_range (c : ColorModel) (δ : ℚ)
    (hv : 0 ≤ c.hsv.v ∧ c.hsv.v ≤ 100) :
    (0 ≤ (saturate c δ 100 0).hsv.s ∧ (saturate c δ 100 0).hsv.s ≤ 100) ∧
    (0 ≤ (saturate c δ 100 0).hsv.v ∧ (saturate c δ 100 0).hsv.v ≤ 100) := by
  have htgt : (saturate c δ 100 0).hsv =
      hslToHsv (hsvToHsl ⟨c.hsv.h, clampJs (c.hsv.s + δ) 0 100, c.hsv.v⟩) := rfl
  rw [htgt]
  have hc := clampJs_range (c.hsv.s + δ)
  have h1 := hsvToHsl_range ⟨c.hsv.h, clampJs (c.hsv.s + δ) 0 100, c.hsv.v⟩ hc hv
  exact hslToHsv_range _ h1.1 h1.2

theorem round_cast_range {x : ℚ} (h1 : 65 ≤ x) (h2 : x < 85) :
    0 ≤ ((round x : ℤ) : ℚ) ∧ ((round x : ℤ) : ℚ) ≤ 100 := by
  rw [round_eq]
  constructor
  · exact_mod_cast le_trans (by norm_num) (Int.le_floor.mpr (by push_cast; linarith) :
      (65 : ℤ) ≤ ⌊x + 1 / 2⌋)
  · have : (⌊x + 1 / 2⌋ : ℤ) < 86 := Int.floor_lt.mpr (by push_cast; linarith)
    exact_mod_cast by omega



theorem clamp01_range (x : ℚ) : 0 ≤ max 0 (min 100 x) ∧ max 0 (min 100 x) ≤ 100 :=
  ⟨le_max_left 0 _, max_le (by norm_num) (min_le_left 100 x)⟩

theorem generateBasePalette_mem_sat (ρ : ℕ → ℚ) (g : ColorPaletteGenerator) (n : ℕ) :
    ∀ c ∈ (generateBasePalette ρ g n).1, c = g.baseColor ∨ (0 ≤ c.hsv.s ∧ c.hsv.s ≤ 100) := by
  intro c hc
  simp only [generateBasePalette, List.mem_append, List.mem_reverse, List.mem_map,
    List.mem_range, List.mem_singleton, List.mem_cons, List.not_mem_nil, or_false] at hc
  rcases hc with (⟨j, hj, rfl⟩ | rfl) | ⟨j, hj, rfl⟩
  · exact Or.inr (clamp01_range _)
  · exact Or.inl rfl
  · exact Or.inr (clamp01_range _)

theorem generateLightPalette_mem_sat (ρ : ℕ → ℚ) (base : List ColorModel) (n : ℕ) :
    ∀ c ∈ (generateLightPalette ρ base n).1, 0 ≤ c.hsv.s ∧ c.hsv.s ≤ 100 := by
  intro c hc
  simp only [generateLightPalette, List.mem_map] at hc
  obtain ⟨b, hb, rfl⟩ := hc
  exact clamp01_range _

theorem generateDarkPalette_mem_sat (ρ : ℕ → ℚ) (base : List ColorModel) (n : ℕ) :
    ∀ c ∈ (generateDarkPalette ρ base n).1, 0 ≤ c.hsv.s ∧ c.hsv.s ≤ 100 := by
  intro c hc
  simp only [generateDarkPalette, List.mem_map] at hc
  obtain ⟨b, hb, rfl⟩ := hc
  exact clamp01_range _

theorem fullPalette_generatePalettes_sat (ρ : ℕ → ℚ) (g0 : ColorPaletteGenerator) (n0 : ℕ)
    (hseed : 0 ≤ g0.baseColor.hsv.s ∧ g0.baseColor.hsv.s ≤ 100) :
    ∀ c ∈ fullPalette (generatePalettes ρ g0 n0).1, 0 ≤ c.hsv.s ∧ c.hsv.s ≤ 100 := by
  intro c hc
  have hfp : fullPalette (generatePalettes ρ g0 n0).1 =
      (generateLightPalette ρ (generateBasePalette ρ g0 n0).1 ((generateBasePalette ρ g0 n0).2)).1 ++
      (generateBasePalette ρ g0 n0).1 ++
      (generateDarkPalette ρ (generateBasePalette ρ g0 n0).1
        ((generateLightPalette ρ (generateBasePalette ρ g0 n0).1
          ((generateBasePalette ρ g0 n0).2)).2)).1 := rfl
  rw [hfp] at hc
  rcases List.mem_append.mp hc with hc' | hc'
  · rcases List.mem_append.mp hc' with hc'' | hc''
    · exact generateLightPalette_mem_sat ρ _ _ c hc''
    · rcases generateBasePalette_mem_sat ρ g0 n0 c hc'' with rfl | hb
      · exact hseed
      · exact hb
  · exact generateDarkPalette_mem_sat ρ _ _ c hc'

theorem saturationPool_full (g : ColorPaletteGenerator)
    (hsat : ∀ c ∈ fullPalette g, 0 ≤ c.hsv.s ∧ c.hsv.s ≤ 100) :
    saturationPool g 0 100 = fullPalette g := by
  unfold saturationPool
  rw [List.filter_eq_self.mpr fun a ha => decide_eq_true (hsat a ha).1,
    List.filter_eq_self.mpr fun a ha => decide_eq_true (hsat a ha).2]

theorem runConstructor_decomp (ρ : ℕ → ℚ) (prm : ColorPaletteParams)
    (hρ : ∀ i, 0 ≤ ρ i ∧ ρ i < 1)
    (hbs : ∀ bs ∈ prm.baseSaturation, 0 ≤ bs ∧ bs ≤ 100) :
    ∃ g0 n0, runConstructor ρ prm = generatePalettes ρ g0 n0 ∧
      g0.precision = prm.precision ∧
      (0 ≤ g0.baseColor.hsv.s ∧ g0.baseColor.hsv.s ≤ 100) := by
  rcases prm with ⟨p, hr, bc, bs⟩
  have hround : ∀ i : ℕ, 0 ≤ ((round (ρ i * 20 + 65) : ℤ) : ℚ) ∧
      ((round (ρ i * 20 + 65) : ℤ) : ℚ) ≤ 100 := fun i =>
    round_cast_range (by linarith [(hρ i).1]) (by linarith [(hρ i).2])
  rcases bc with _ | hex
  · rcases bs with _ | v
    · exact ⟨_, 3, rfl, rfl, hround 1⟩
    · exact ⟨_, 2, rfl, rfl, hbs v rfl⟩
  · by_cases h0 : hex = ""
    · subst h0
      rcases bs with _ | v
      · exact ⟨_, 3, rfl, rfl, hround 1⟩
      · exact ⟨_, 2, rfl, rfl, hbs v rfl⟩
    · refine ⟨setBaseColor
        { precision := p, hueRange := hr, baseColor := ColorModel.ofHex "#000000",
          palettes := ⟨[], [], []⟩ } hex bs, 0, ?_, rfl, ?_⟩
      · simp only [runConstructor]
        rw [if_neg h0]
      · exact (saturate_hsv_range (ofHex hex) _ (ofHex_hsv_range hex).2).1



/-- C3: on a generator the constructor builds from a documented
configuration (precision at least 1, baseSaturation within 0–100 when
given, rand values in [0,1)), every result `getDistributedPalette` returns
for length 8 with `includeBaseColor` contains the seed color; and for every
generator state and option set whose filtered pool has at most `length+1`
entries, the fallback returns exactly `min(length, pool size)` colors,
where `length` is the post-reservation target. -/
theorem distributed_palette_spec :
    (∀ (ρ ρ' : ℕ → ℚ) (prm : ColorPaletteParams) (fuel n : ℕ) (r : List ColorModel × ℕ),
        (∀ i, 0 ≤ ρ i ∧ ρ i < 1) →
        1 ≤ prm.precision →
        (∀ bs ∈ prm.baseSaturation, 0 ≤ bs ∧ bs ≤ 100) →
        getDistributedPalette ρ' (runConstructor ρ prm).1
          { length := 8, includeBaseColor := true } fuel n = some r →
        (runConstructor ρ prm).1.baseColor ∈ r.1) ∧
    (∀ (ρ' : ℕ → ℚ) (g : ColorPaletteGenerator) (o : DistributedPaletteOptions) (fuel n : ℕ),
        ((saturationPool g o.minSaturation o.maxSaturation).length : ℤ) ≤ distLength o + 1 →
        (getDistributedPalette ρ' g o fuel n).map (fun pr => pr.1.length) =
          some (min (distLength o).toNat
            (saturationPool g o.minSaturation o.maxSaturation).length)) := by
  constructor
  · intro ρ ρ' prm fuel n r hρ hp hbs heq
    obtain ⟨g0, n0, hrc, hprec, hseed⟩ := runConstructor_decomp ρ prm hρ hbs
    have hsat : ∀ c ∈ fullPalette (runConstructor ρ prm).1,
        0 ≤ c.hsv.s ∧ c.hsv.s ≤ 100 := by
      rw [hrc]
      exact fullPalette_generatePalettes_sat ρ g0 n0 hseed
    have hlen : (fullPalette (runConstructor ρ prm).1).length = 3 * (2 * prm.precision + 1) := by
      rw [hrc]
      obtain ⟨-, hbl, hll, hdl⟩ := generatePalettes_lengths ρ g0 n0
      simp only [fullPalette, List.length_append]
      rw [hbl, hll, hdl, hprec]
      ring
    have hpool : saturationPool (runConstructor ρ prm).1 0 100 =
        fullPalette (runConstructor ρ prm).1 := saturationPool_full _ hsat
    have hnofall : ¬ ((saturationPool (runConstructor ρ prm).1 0 100).length : ℤ) ≤
        distLength { length := 8, includeBaseColor := true } + 1 := by
      rw [hpool, hlen]
      rw [show distLength { length := 8, includeBaseColor := true } = 7 from by
        with_unfolding_all rfl]
      push_cast
      omega
    simp only [getDistributedPalette] at heq
    rw [if_neg hnofall] at heq
    split at heq
    · exact absurd heq (by simp)
    split at heq
    · exact absurd heq (by simp)
    split at heq
    · exact absurd heq (by simp)
    cases heq
    rw [if_pos trivial, if_pos trivial]
    exact (sortByV_perm _).mem_iff.mpr (by simp)
  · intro ρ' g o fuel n h
    simp only [getDistributedPalette]
    rw [if_pos h]
    simp [List.length_take, shuffleJs_length]

/-- Witness for C3 at a concrete three-color pool exercising the
small-pool fallback. -/
theorem distributed_palette_spec_witness :
    ((ColorPaletteGenerator.saturationPool genSmall (0 : ℚ) 100).length : ℤ) ≤
      distLength { length := 8 } + 1 ∧
    (ColorPaletteGenerator.getDistributedPalette zeroRand genSmall { length := 8 } 5 0).map
        (fun pr => pr.1.length) =
      some (min (distLength { length := 8 }).toNat
        (ColorPaletteGenerator.saturationPool genSmall 0 100).length) :=
  ⟨of_decide_eq_true (by with_unfolding_all rfl),
    distributed_palette_spec.2 zeroRand genSmall { length := 8 } 5 0
      (of_decide_eq_true (by with_unfolding_all rfl))⟩

end RangeLemmas
